import Mathlib

/-!
# stm32plus: the CAN2 interrupt feature and the Timer15 composition

A shallow embedding of

* `lib/include/can/features/f4/Can2InterruptFeature.h`
* `lib/include/timer/f0/Timer15.h`

Unsigned machine integers are natural numbers; every C assignment that goes
through the integer promotions is written with its truncation `% 2 ^ 16`.
The `int` of the target (ARM Cortex-M) is 32 bits wide, and the value of a
promoted operand is kept as its two's-complement bit pattern.

The member functions of `Can2InterruptFeature` read and write three things:
the fields of the object, the class statics (`_canInstance`, `_forceLinkage`)
and the outside world, which here is the ordered log of the calls made to the
collaborators (`Nvic::configureIrq`, `CAN_ITConfig`, `CAN_ClearITPendingBit`).
Each member function is a function from the object and the statics to the new
object and the new statics.
-/

set_option linter.dupNamespace false

namespace stm32plus

/-! ## Collaborators -/

/-- The `FunctionalState` enumeration of the peripheral library. -/
inductive FunctionalState where
  | DISABLE
  | ENABLE
  deriving DecidableEq, Repr

/-- The four interrupt lines of CAN2 in the vector table. -/
inductive IRQn where
  | CAN2_TX_IRQn
  | CAN2_RX0_IRQn
  | CAN2_RX1_IRQn
  | CAN2_SCE_IRQn
  deriving DecidableEq, Repr

/-- The forward-declared interrupt handlers. -/
inductive IRQHandler where
  | CAN2_TX_IRQHandler
  | CAN2_RX0_IRQHandler
  | CAN2_RX1_IRQHandler
  | CAN2_SCE_IRQHandler
  deriving DecidableEq, Repr

/-- One call made to an external collaborator, with its arguments in the
order of the C++ call. The peripheral `_can` is named by a number. -/
inductive Call where
  | configureIrq (irq : IRQn) (state : FunctionalState) (priority subPriority : Nat)
  | CAN_ITConfig (can : Nat) (interruptMask : Nat) (state : FunctionalState)
  | CAN_ClearITPendingBit (can : Nat) (interruptMask : Nat)
  deriving DecidableEq, Repr

/-- Whether a call goes to `Nvic::configureIrq`. -/
def Call.isConfigureIrq : Call → Bool
  | .configureIrq _ _ _ _ => true
  | _ => false

/-! ## State -/

/-- The class statics of `Can2InterruptFeature` together with the log of
collaborator calls, oldest call first. A null pointer is `none`; an object is
named by its address. -/
structure Statics where
  _canInstance : Option Nat
  _forceLinkage : Option IRQHandler
  calls : List Call
  deriving DecidableEq, Repr

/-- The state before anything ran: zero-initialised statics, no call made. -/
def Statics.initial : Statics :=
  { _canInstance := none, _forceLinkage := none, calls := [] }

/-- The fields of one `Can2InterruptFeature` object: its own address, the
`_can` reference held by `CanFeatureBase`, and the three protected members. -/
structure Can2InterruptFeature where
  this : Nat
  _can : Nat
  _interruptMask : Nat
  _nvicPriority : Nat
  _nvicSubPriority : Nat
  deriving DecidableEq, Repr

/-! ## Integer arithmetic of the two mask updates -/

/-- Bitwise complement of a promoted operand: the bit pattern of `~x` in a
32-bit `int`. -/
def intNot (x : Nat) : Nat := 2 ^ 32 - 1 - x

/-- The value stored by `_interruptMask|=interruptMask`: both operands are
promoted to `int`, or-ed, and the result is converted back to `uint16_t`. -/
def orAssign (interruptMask_ mask : Nat) : Nat :=
  (interruptMask_ ||| mask) % 2 ^ 16

/-- The value stored by `_interruptMask&=~interruptMask`: the complement is
taken on the promoted `int`, and-ed with the promoted field, and the result is
converted back to `uint16_t`. -/
def andNotAssign (interruptMask_ mask : Nat) : Nat :=
  (interruptMask_ &&& intNot mask) % 2 ^ 16

/-! ## Member functions -/

namespace Can2InterruptFeature

/-- Constructor `Can2InterruptFeature(Can& can)` of the object at address
`this`. -/
def Can2InterruptFeature (this can : Nat) (g : Statics) :
    stm32plus.Can2InterruptFeature × Statics :=
  ({ this := this, _can := can,
     _interruptMask := 0, _nvicPriority := 0, _nvicSubPriority := 0 },
   { g with _canInstance := some this })

/-- Member `setNvicPriorities(priority, subPriority)`. -/
def setNvicPriorities (f : stm32plus.Can2InterruptFeature) (priority subPriority : Nat)
    (g : Statics) : stm32plus.Can2InterruptFeature × Statics :=
  ({ f with _nvicPriority := priority, _nvicSubPriority := subPriority }, g)

/-- Member `enableInterrupts(interruptMask)`. -/
def enableInterrupts (f : stm32plus.Can2InterruptFeature) (interruptMask : Nat)
    (g : Statics) : stm32plus.Can2InterruptFeature × Statics :=
  let f1 := { f with _interruptMask := orAssign f._interruptMask interruptMask }
  let g1 := { g with _forceLinkage := some IRQHandler.CAN2_TX_IRQHandler }
  let g2 := { g1 with calls := g1.calls ++
    [Call.configureIrq IRQn.CAN2_TX_IRQn FunctionalState.ENABLE
      f1._nvicPriority f1._nvicSubPriority] }
  let g3 := { g2 with calls := g2.calls ++
    [Call.configureIrq IRQn.CAN2_RX0_IRQn FunctionalState.ENABLE
      f1._nvicPriority f1._nvicSubPriority] }
  let g4 := { g3 with calls := g3.calls ++
    [Call.configureIrq IRQn.CAN2_RX1_IRQn FunctionalState.ENABLE
      f1._nvicPriority f1._nvicSubPriority] }
  let g5 := { g4 with calls := g4.calls ++
    [Call.configureIrq IRQn.CAN2_SCE_IRQn FunctionalState.ENABLE
      f1._nvicPriority f1._nvicSubPriority] }
  let g6 := { g5 with calls := g5.calls ++
    [Call.CAN_ITConfig f1._can interruptMask FunctionalState.ENABLE] }
  (f1, g6)

/-- Member `disableInterrupts(interruptMask)`. -/
def disableInterrupts (f : stm32plus.Can2InterruptFeature) (interruptMask : Nat)
    (g : Statics) : stm32plus.Can2InterruptFeature × Statics :=
  let f1 := { f with _interruptMask := andNotAssign f._interruptMask interruptMask }
  let g1 := { g with calls := g.calls ++
    [Call.CAN_ITConfig f1._can interruptMask FunctionalState.DISABLE] }
  (f1, g1)

/-- Member `clearPendingInterruptsFlag(interruptMask) const`. -/
def clearPendingInterruptsFlag (f : stm32plus.Can2InterruptFeature) (interruptMask : Nat)
    (g : Statics) : stm32plus.Can2InterruptFeature × Statics :=
  (f, { g with calls := g.calls ++ [Call.CAN_ClearITPendingBit f._can interruptMask] })

/-- Member `initialise()`, whose body is empty. -/
def initialise (f : stm32plus.Can2InterruptFeature) (g : Statics) :
    stm32plus.Can2InterruptFeature × Statics :=
  (f, g)

/-- Destructor `~Can2InterruptFeature()`: the fields and statics as its body
leaves them. -/
def destructor (f : stm32plus.Can2InterruptFeature) (g : Statics) :
    stm32plus.Can2InterruptFeature × Statics :=
  if f._interruptMask ≠ 0 then
    disableInterrupts f f._interruptMask g
  else
    (f, g)

end Can2InterruptFeature

/-! ## Sequences of member calls on one object -/

/-- A call of one public member function, with its arguments. -/
inductive Op where
  | setNvicPriorities (priority subPriority : Nat)
  | enableInterrupts (interruptMask : Nat)
  | disableInterrupts (interruptMask : Nat)
  | clearPendingInterruptsFlag (interruptMask : Nat)
  | initialise
  deriving DecidableEq, Repr

/-- Whether the call is `enableInterrupts`. -/
def Op.isEnable : Op → Bool
  | .enableInterrupts _ => true
  | _ => false

/-- Run one member call. -/
def Op.run (op : Op) (s : Can2InterruptFeature × Statics) : Can2InterruptFeature × Statics :=
  match op with
  | .setNvicPriorities p sp => Can2InterruptFeature.setNvicPriorities s.1 p sp s.2
  | .enableInterrupts m => Can2InterruptFeature.enableInterrupts s.1 m s.2
  | .disableInterrupts m => Can2InterruptFeature.disableInterrupts s.1 m s.2
  | .clearPendingInterruptsFlag m => Can2InterruptFeature.clearPendingInterruptsFlag s.1 m s.2
  | .initialise => Can2InterruptFeature.initialise s.1 s.2

/-- Run a sequence of member calls, first element first. -/
def runOps (ops : List Op) (s : Can2InterruptFeature × Statics) :
    Can2InterruptFeature × Statics :=
  ops.foldl (fun s op => op.run s) s

/-- Whether the call is `setNvicPriorities`. -/
def Op.isSetNvicPriorities : Op → Bool
  | .setNvicPriorities _ _ => true
  | _ => false

/-- The arguments of the most recent `setNvicPriorities` call of a sequence,
and the constructor's `(0, 0)` when the sequence has none. -/
def lastPriorities (ops : List Op) : Nat × Nat :=
  match ops.reverse.find? Op.isSetNvicPriorities with
  | some (.setNvicPriorities p sp) => (p, sp)
  | _ => (0, 0)

/-! ## Sample values -/

/-- A feature object with `0x0F` enabled and priorities 3 and 1. -/
def sampleFeature : Can2InterruptFeature :=
  { this := 1, _can := 2, _interruptMask := 0x0F, _nvicPriority := 3, _nvicSubPriority := 1 }

/-! ## Timer15 -/

/-- The peripheral identifier that `Timer15` passes as template argument. -/
inductive PeripheralName where
  | PERIPHERAL_TIMER15
  deriving DecidableEq, Repr

/-- The register block that `Timer15` passes to its base. -/
inductive TimerRegisters where
  | TIM15
  deriving DecidableEq, Repr

/-- The reference `static_cast<Timer&>(*this)`: the `Timer` base of the object
that lives at address `owner`. -/
structure TimerRef where
  owner : Nat
  deriving DecidableEq, Repr

/-- What the composer needs of one feature class of the parameter pack, over
a program state `σ`: its constructor from a `Timer&`, and its `initialise()`
member (as `Can2InterruptFeature::initialise`). -/
structure Feature (σ : Type) where
  construct : TimerRef → σ → σ
  initialise : σ → σ

namespace Timer15

/-- Constructor `Timer15()` of the object at address `this`: the
mem-initialisers run in the order of the base-specifier list, that is
`GeneralPurposeTimer<TimerType,PERIPHERAL_TIMER15>(TIM15)` first and then the
expansion `Features(static_cast<Timer&>(*this))...` from left to right; the
body is empty. The base constructor, which is not part of this file, is a
parameter. -/
def Timer15 {σ : Type}
    (GeneralPurposeTimer : PeripheralName → TimerRegisters → Nat → σ → σ)
    (Features : List (Feature σ)) (this : Nat) (s : σ) : σ :=
  let s1 := GeneralPurposeTimer PeripheralName.PERIPHERAL_TIMER15 TimerRegisters.TIM15 this s
  let s2 := Features.foldl (fun acc F => F.construct (TimerRef.mk this) acc) s1
  s2

end Timer15

/-- One step observed while a composed peripheral is built; features are
named by values of `φ`. -/
inductive Step (φ : Type) where
  | baseConstructed (peripheral : PeripheralName) (regs : TimerRegisters) (this : Nat)
  | featureConstructed (feature : φ) (timer : TimerRef)
  | featureInitialised (feature : φ)
  deriving DecidableEq, Repr

/-- A feature that does nothing but record that it was constructed, and with
which reference, and that it was initialised. -/
def Feature.recording {φ : Type} (name : φ) : Feature (List (Step φ)) :=
  { construct := fun t log => log ++ [Step.featureConstructed name t],
    initialise := fun log => log ++ [Step.featureInitialised name] }

/-- A base constructor that does nothing but record its arguments. -/
def recordingBase {φ : Type} (p : PeripheralName) (r : TimerRegisters) (this : Nat)
    (log : List (Step φ)) : List (Step φ) :=
  log ++ [Step.baseConstructed p r this]

/-- The steps of constructing a `Timer15<F1, ..., Fn>` at address `this`,
oldest first, for the feature list `names`. -/
def Timer15.steps {φ : Type} (names : List φ) (this : Nat) : List (Step φ) :=
  Timer15.Timer15 recordingBase (names.map Feature.recording) this []

/-! ## Auxiliary facts -/

theorem orAssign_eq (s m : Nat) (hs : s < 2 ^ 16) (hm : m < 2 ^ 16) :
    orAssign s m = s ||| m := by
  unfold orAssign
  exact Nat.mod_eq_of_lt (Nat.or_lt_two_pow hs hm)

theorem testBit_high_false (s i : Nat) (hs : s < 2 ^ 16) (hi : 16 ≤ i) :
    s.testBit i = false := by
  apply Nat.testBit_lt_two_pow
  exact Nat.lt_of_lt_of_le hs (Nat.pow_le_pow_right (by decide) hi)

theorem testBit_andNotAssign (s m i : Nat) (hs : s < 2 ^ 16) (hm : m < 2 ^ 16) :
    (andNotAssign s m).testBit i = (s.testBit i && !m.testBit i) := by
  have hm32 : m < 2 ^ 32 := Nat.lt_of_lt_of_le hm (by decide)
  have hnot : intNot m = 2 ^ 32 - (m + 1) := by unfold intNot; omega
  unfold andNotAssign
  rw [hnot, Nat.testBit_mod_two_pow, Nat.testBit_and, Nat.testBit_two_pow_sub_succ hm32]
  by_cases hi : i < 16
  · have hi32 : i < 32 := by omega
    simp [hi, hi32]
  · have hfalse : s.testBit i = false := testBit_high_false s i hs (by omega)
    simp [hi, hfalse]

theorem andNotAssign_eq (s m : Nat) (hs : s < 2 ^ 16) (hm : m < 2 ^ 16) :
    andNotAssign s m = s &&& (2 ^ 16 - 1 - m) := by
  apply Nat.eq_of_testBit_eq
  intro i
  have hnot : 2 ^ 16 - 1 - m = 2 ^ 16 - (m + 1) := by omega
  rw [testBit_andNotAssign s m i hs hm, hnot, Nat.testBit_and,
    Nat.testBit_two_pow_sub_succ hm]
  by_cases hi : i < 16
  · simp [hi]
  · have hfalse : s.testBit i = false := testBit_high_false s i hs (by omega)
    simp [hi, hfalse]

theorem andNotAssign_self (s : Nat) (hs : s < 2 ^ 16) : andNotAssign s s = 0 := by
  apply Nat.eq_of_testBit_eq
  intro i
  rw [testBit_andNotAssign s s i hs hs]
  simp

theorem runOps_nil (s : Can2InterruptFeature × Statics) : runOps [] s = s := rfl

theorem runOps_cons (op : Op) (ops : List Op) (s : Can2InterruptFeature × Statics) :
    runOps (op :: ops) s = runOps ops (op.run s) := rfl

theorem runOps_snoc (ops : List Op) (op : Op) (s : Can2InterruptFeature × Statics) :
    runOps (ops ++ [op]) s = op.run (runOps ops s) := by
  unfold runOps
  rw [List.foldl_append]
  rfl

/-- No member function writes `_canInstance`. -/
theorem Op.run_canInstance (op : Op) (s : Can2InterruptFeature × Statics) :
    (op.run s).2._canInstance = s.2._canInstance := by
  cases op <;> rfl

theorem runOps_canInstance (ops : List Op) (s : Can2InterruptFeature × Statics) :
    (runOps ops s).2._canInstance = s.2._canInstance := by
  induction ops generalizing s with
  | nil => rfl
  | cons op rest ih => rw [runOps_cons, ih, Op.run_canInstance]

/-- No member function changes the identity of the object or its `_can`. -/
theorem Op.run_identity (op : Op) (s : Can2InterruptFeature × Statics) :
    (op.run s).1.this = s.1.this ∧ (op.run s).1._can = s.1._can := by
  cases op <;> exact ⟨rfl, rfl⟩

theorem runOps_identity (ops : List Op) (s : Can2InterruptFeature × Statics) :
    (runOps ops s).1.this = s.1.this ∧ (runOps ops s).1._can = s.1._can := by
  induction ops generalizing s with
  | nil => exact ⟨rfl, rfl⟩
  | cons op rest ih =>
    rw [runOps_cons]
    exact ⟨(ih _).1.trans (Op.run_identity op s).1, (ih _).2.trans (Op.run_identity op s).2⟩

/-- The stored priorities after a sequence of calls are those of its most
recent `setNvicPriorities`, and the earlier ones when it has none. -/
theorem runOps_priorities (ops : List Op) (s : Can2InterruptFeature × Statics) :
    ((runOps ops s).1._nvicPriority, (runOps ops s).1._nvicSubPriority) =
      match ops.reverse.find? Op.isSetNvicPriorities with
      | some (.setNvicPriorities p sp) => (p, sp)
      | _ => (s.1._nvicPriority, s.1._nvicSubPriority) := by
  induction ops using List.reverseRecOn with
  | nil => rfl
  | append_singleton ops op ih =>
    rw [runOps_snoc, List.reverse_append, List.reverse_singleton, List.singleton_append]
    cases op with
    | setNvicPriorities p sp => simp [List.find?, Op.isSetNvicPriorities, Op.run,
        Can2InterruptFeature.setNvicPriorities]
    | enableInterrupts m =>
      simp only [List.find?, Op.isSetNvicPriorities]
      rw [← ih]; rfl
    | disableInterrupts m =>
      simp only [List.find?, Op.isSetNvicPriorities]
      rw [← ih]; rfl
    | clearPendingInterruptsFlag m =>
      simp only [List.find?, Op.isSetNvicPriorities]
      rw [← ih]; rfl
    | initialise =>
      simp only [List.find?, Op.isSetNvicPriorities]
      rw [← ih]; rfl

/-- A member call other than `enableInterrupts` only appends calls that do not
go to `Nvic::configureIrq`. -/
theorem Op.run_calls_of_not_enable (op : Op) (s : Can2InterruptFeature × Statics)
    (h : op.isEnable = false) :
    ∃ extra, (op.run s).2.calls = s.2.calls ++ extra ∧
      ∀ c ∈ extra, c.isConfigureIrq = false := by
  cases op with
  | setNvicPriorities p sp => exact ⟨[], by simp [Op.run, Can2InterruptFeature.setNvicPriorities]⟩
  | enableInterrupts m => simp [Op.isEnable] at h
  | disableInterrupts m =>
    exact ⟨[Call.CAN_ITConfig s.1._can m FunctionalState.DISABLE],
      by simp [Op.run, Can2InterruptFeature.disableInterrupts, Call.isConfigureIrq]⟩
  | clearPendingInterruptsFlag m =>
    exact ⟨[Call.CAN_ClearITPendingBit s.1._can m],
      by simp [Op.run, Can2InterruptFeature.clearPendingInterruptsFlag, Call.isConfigureIrq]⟩
  | initialise => exact ⟨[], by simp [Op.run, Can2InterruptFeature.initialise]⟩

theorem runOps_calls_of_no_enable (ops : List Op) (s : Can2InterruptFeature × Statics)
    (h : ops.all (fun op => !op.isEnable) = true) :
    ∃ extra, (runOps ops s).2.calls = s.2.calls ++ extra ∧
      ∀ c ∈ extra, c.isConfigureIrq = false := by
  induction ops generalizing s with
  | nil => exact ⟨[], by simp [runOps_nil]⟩
  | cons op rest ih =>
    simp only [List.all_cons, Bool.and_eq_true, Bool.not_eq_true'] at h
    obtain ⟨e1, h1, hc1⟩ := Op.run_calls_of_not_enable op s h.1
    obtain ⟨e2, h2, hc2⟩ := ih (op.run s) h.2
    refine ⟨e1 ++ e2, ?_, ?_⟩
    · rw [runOps_cons, h2, h1, List.append_assoc]
    · intro c hc
      rcases List.mem_append.mp hc with hc | hc
      · exact hc1 c hc
      · exact hc2 c hc

/-- The log after the base constructor and the feature constructors ran on
top of a log `log`. -/
theorem foldl_recording {φ : Type} (names : List φ) (t : TimerRef) (log : List (Step φ)) :
    (names.map Feature.recording).foldl (fun acc F => F.construct t acc) log =
      log ++ names.map (fun n => Step.featureConstructed n t) := by
  induction names generalizing log with
  | nil => simp
  | cons n rest ih =>
    simp only [List.map_cons, List.foldl_cons]
    rw [ih]
    simp [Feature.recording]

theorem Timer15.steps_eq {φ : Type} (names : List φ) (this : Nat) :
    Timer15.steps names this =
      Step.baseConstructed PeripheralName.PERIPHERAL_TIMER15 TimerRegisters.TIM15 this ::
        names.map (fun n => Step.featureConstructed n (TimerRef.mk this)) := by
  unfold Timer15.steps Timer15.Timer15
  simp only []
  rw [foldl_recording]
  simp [recordingBase]

/-- The calls that one `enableInterrupts` appends to the log. -/
theorem enableInterrupts_calls (f : Can2InterruptFeature) (interruptMask : Nat) (g : Statics) :
    (Can2InterruptFeature.enableInterrupts f interruptMask g).2.calls = g.calls ++
      [Call.configureIrq IRQn.CAN2_TX_IRQn FunctionalState.ENABLE
          f._nvicPriority f._nvicSubPriority,
       Call.configureIrq IRQn.CAN2_RX0_IRQn FunctionalState.ENABLE
          f._nvicPriority f._nvicSubPriority,
       Call.configureIrq IRQn.CAN2_RX1_IRQn FunctionalState.ENABLE
          f._nvicPriority f._nvicSubPriority,
       Call.configureIrq IRQn.CAN2_SCE_IRQn FunctionalState.ENABLE
          f._nvicPriority f._nvicSubPriority,
       Call.CAN_ITConfig f._can interruptMask FunctionalState.ENABLE] := by
  simp [Can2InterruptFeature.enableInterrupts]

/-- The destructor does not write `_canInstance`. -/
theorem destructor_canInstance (f : Can2InterruptFeature) (g : Statics) :
    (Can2InterruptFeature.destructor f g).2._canInstance = g._canInstance := by
  unfold Can2InterruptFeature.destructor
  split <;> rfl

/-! ## The interrupt mask -/

/-- C1: `enableInterrupts` is additive. For 16-bit masks `mask1` and `mask2`,
two successive calls on a freshly constructed feature leave `_interruptMask`
equal to `mask1 | mask2`, and from any 16-bit starting mask `s` they leave
`s | mask1 | mask2`. -/
theorem enableInterrupts_additive (f : Can2InterruptFeature) (g : Statics)
    (this can mask1 mask2 : Nat)
    (hs : f._interruptMask < 2 ^ 16) (h1 : mask1 < 2 ^ 16) (h2 : mask2 < 2 ^ 16) :
    (runOps [Op.enableInterrupts mask1, Op.enableInterrupts mask2]
        (Can2InterruptFeature.Can2InterruptFeature this can g)).1._interruptMask
      = mask1 ||| mask2 ∧
    (runOps [Op.enableInterrupts mask1, Op.enableInterrupts mask2] (f, g)).1._interruptMask
      = f._interruptMask ||| mask1 ||| mask2 := by
  have h0 : (0 : Nat) < 2 ^ 16 := by decide
  constructor
  · show orAssign (orAssign 0 mask1) mask2 = mask1 ||| mask2
    rw [orAssign_eq 0 mask1 h0 h1, orAssign_eq _ mask2 (Nat.or_lt_two_pow h0 h1) h2]
    simp
  · show orAssign (orAssign f._interruptMask mask1) mask2 = f._interruptMask ||| mask1 ||| mask2
    rw [orAssign_eq _ mask1 hs h1, orAssign_eq _ mask2 (Nat.or_lt_two_pow hs h1) h2]

/-- The additivity of `enableInterrupts` at `s = 0x0F`, `mask1 = 0x10`,
`mask2 = 0x21`. -/
theorem enableInterrupts_additive_witness :
    (sampleFeature._interruptMask < 2 ^ 16 ∧ 0x10 < 2 ^ 16 ∧ 0x21 < 2 ^ 16) ∧
    ((runOps [Op.enableInterrupts 0x10, Op.enableInterrupts 0x21]
        (Can2InterruptFeature.Can2InterruptFeature 7 2 Statics.initial)).1._interruptMask
      = 0x10 ||| 0x21 ∧
    (runOps [Op.enableInterrupts 0x10, Op.enableInterrupts 0x21]
        (sampleFeature, Statics.initial)).1._interruptMask
      = sampleFeature._interruptMask ||| 0x10 ||| 0x21) :=
  ⟨by decide,
   enableInterrupts_additive sampleFeature Statics.initial 7 2 0x10 0x21
    (by decide) (by decide) (by decide)⟩

/-- C2: `disableInterrupts(m)` clears exactly the bits of `m`. For a 16-bit
accumulated mask `s` and a 16-bit `m` the new `_interruptMask` is `s` and-ed
with the 16-bit complement of `m`, bit by bit the bit of `s` and not the bit
of `m`; from `0x0F`, enabling `0x10` gives `0x1F` and disabling `0x0F` then
gives `0x10`. -/
theorem disableInterrupts_clears (f : Can2InterruptFeature) (g : Statics) (m : Nat)
    (hs : f._interruptMask < 2 ^ 16) (hm : m < 2 ^ 16) :
    (Can2InterruptFeature.disableInterrupts f m g).1._interruptMask
      = f._interruptMask &&& (2 ^ 16 - 1 - m) ∧
    (∀ i : Nat, ((Can2InterruptFeature.disableInterrupts f m g).1._interruptMask).testBit i
      = (f._interruptMask.testBit i && !m.testBit i)) ∧
    (runOps [Op.enableInterrupts 0x10]
        ({ f with _interruptMask := 0x0F }, g)).1._interruptMask = 0x1F ∧
    (runOps [Op.enableInterrupts 0x10, Op.disableInterrupts 0x0F]
        ({ f with _interruptMask := 0x0F }, g)).1._interruptMask = 0x10 := by
  refine ⟨andNotAssign_eq _ m hs hm, fun i => testBit_andNotAssign _ m i hs hm, ?_, ?_⟩
  · show orAssign 0x0F 0x10 = 0x1F
    decide
  · show andNotAssign (orAssign 0x0F 0x10) 0x0F = 0x10
    decide

/-- Clearing `0x0F` from the accumulated mask `0x1F`. -/
theorem disableInterrupts_clears_witness :
    ((0x1F : Nat) < 2 ^ 16 ∧ (0x0F : Nat) < 2 ^ 16) ∧
    (Can2InterruptFeature.disableInterrupts { sampleFeature with _interruptMask := 0x1F } 0x0F
        Statics.initial).1._interruptMask = 0x10 :=
  ⟨by decide,
   (disableInterrupts_clears { sampleFeature with _interruptMask := 0x1F } Statics.initial 0x0F
    (by decide) (by decide)).1⟩

/-- C3: the destructor of a feature with a 16-bit accumulated mask appends
exactly one call `CAN_ITConfig(_can, mask, DISABLE)` with the whole accumulated
mask when that mask is not zero, appends no call when it is zero, and leaves
the accumulated mask at zero. -/
theorem destructor_disables_mask (f : Can2InterruptFeature) (g : Statics)
    (hs : f._interruptMask < 2 ^ 16) :
    (Can2InterruptFeature.destructor f g).2.calls = g.calls ++
      (if f._interruptMask ≠ 0 then
        [Call.CAN_ITConfig f._can f._interruptMask FunctionalState.DISABLE]
      else []) ∧
    (Can2InterruptFeature.destructor f g).1._interruptMask = 0 := by
  unfold Can2InterruptFeature.destructor
  by_cases h : f._interruptMask = 0
  · simp [h]
  · simp only [ne_eq, h, not_false_eq_true, if_true]
    exact ⟨rfl, andNotAssign_self _ hs⟩

/-- Destroying the sample feature, whose accumulated mask is `0x0F`. -/
theorem destructor_disables_mask_witness :
    sampleFeature._interruptMask < 2 ^ 16 ∧
    (Can2InterruptFeature.destructor sampleFeature Statics.initial).2.calls =
      [Call.CAN_ITConfig 2 0x0F FunctionalState.DISABLE] ∧
    (Can2InterruptFeature.destructor sampleFeature Statics.initial).1._interruptMask = 0 :=
  ⟨by decide, destructor_disables_mask sampleFeature Statics.initial (by decide)⟩

/-! ## NVIC priorities and collaborator calls -/

/-- C4: `setNvicPriorities` has deferred application. The call only stores its
two arguments: the statics, the log of calls and the other fields stay as they
were. After the constructor and any sequence `pre` of member calls, the four
`Nvic::configureIrq` calls of `enableInterrupts` carry the arguments of the
most recent `setNvicPriorities` of `pre`, and `(0, 0)` when `pre` has none.
A sequence without `enableInterrupts`, from any state, appends no
`Nvic::configureIrq` call. -/
theorem setNvicPriorities_deferred (f : Can2InterruptFeature) (g : Statics)
    (priority subPriority this can interruptMask : Nat) (pre ops : List Op)
    (s : Can2InterruptFeature × Statics)
    (h : ops.all (fun op => !op.isEnable) = true) :
    Can2InterruptFeature.setNvicPriorities f priority subPriority g =
      ({ f with _nvicPriority := priority, _nvicSubPriority := subPriority }, g) ∧
    (runOps (pre ++ [Op.enableInterrupts interruptMask])
        (Can2InterruptFeature.Can2InterruptFeature this can g)).2.calls =
      (runOps pre (Can2InterruptFeature.Can2InterruptFeature this can g)).2.calls ++
      [Call.configureIrq IRQn.CAN2_TX_IRQn FunctionalState.ENABLE
          (lastPriorities pre).1 (lastPriorities pre).2,
       Call.configureIrq IRQn.CAN2_RX0_IRQn FunctionalState.ENABLE
          (lastPriorities pre).1 (lastPriorities pre).2,
       Call.configureIrq IRQn.CAN2_RX1_IRQn FunctionalState.ENABLE
          (lastPriorities pre).1 (lastPriorities pre).2,
       Call.configureIrq IRQn.CAN2_SCE_IRQn FunctionalState.ENABLE
          (lastPriorities pre).1 (lastPriorities pre).2,
       Call.CAN_ITConfig can interruptMask FunctionalState.ENABLE] ∧
    (∃ extra, (runOps ops s).2.calls = s.2.calls ++ extra ∧
      ∀ c ∈ extra, c.isConfigureIrq = false) := by
  refine ⟨rfl, ?_, runOps_calls_of_no_enable ops s h⟩
  have hp := runOps_priorities pre (Can2InterruptFeature.Can2InterruptFeature this can g)
  have hl : lastPriorities pre =
      ((runOps pre (Can2InterruptFeature.Can2InterruptFeature this can g)).1._nvicPriority,
       (runOps pre (Can2InterruptFeature.Can2InterruptFeature this can g)).1._nvicSubPriority) := by
    rw [hp]
    unfold lastPriorities
    rfl
  have hc := (runOps_identity pre (Can2InterruptFeature.Can2InterruptFeature this can g)).2
  rw [runOps_snoc, hl]
  show (Can2InterruptFeature.enableInterrupts _ interruptMask _).2.calls = _
  rw [enableInterrupts_calls, hc]
  rfl

/-- Priorities set twice, the second time after interrupts were enabled, and
then a sequence without `enableInterrupts`. -/
theorem setNvicPriorities_deferred_witness :
    [Op.setNvicPriorities 9 9, Op.disableInterrupts 1, Op.initialise].all
      (fun op => !op.isEnable) = true ∧
    (runOps ([Op.setNvicPriorities 5 6, Op.enableInterrupts 1, Op.setNvicPriorities 7 8]
          ++ [Op.enableInterrupts 2])
        (Can2InterruptFeature.Can2InterruptFeature 1 2 Statics.initial)).2.calls =
      (runOps [Op.setNvicPriorities 5 6, Op.enableInterrupts 1, Op.setNvicPriorities 7 8]
        (Can2InterruptFeature.Can2InterruptFeature 1 2 Statics.initial)).2.calls ++
      [Call.configureIrq IRQn.CAN2_TX_IRQn FunctionalState.ENABLE 7 8,
       Call.configureIrq IRQn.CAN2_RX0_IRQn FunctionalState.ENABLE 7 8,
       Call.configureIrq IRQn.CAN2_RX1_IRQn FunctionalState.ENABLE 7 8,
       Call.configureIrq IRQn.CAN2_SCE_IRQn FunctionalState.ENABLE 7 8,
       Call.CAN_ITConfig 2 2 FunctionalState.ENABLE] ∧
    (∃ extra, (runOps [Op.setNvicPriorities 9 9, Op.disableInterrupts 1, Op.initialise]
        (sampleFeature, Statics.initial)).2.calls = Statics.initial.calls ++ extra ∧
      ∀ c ∈ extra, c.isConfigureIrq = false) :=
  ⟨by decide,
   (setNvicPriorities_deferred sampleFeature Statics.initial 0 0 1 2 2
      [Op.setNvicPriorities 5 6, Op.enableInterrupts 1, Op.setNvicPriorities 7 8]
      [Op.setNvicPriorities 9 9, Op.disableInterrupts 1, Op.initialise]
      (sampleFeature, Statics.initial) (by decide)).2⟩

/-- C9: every `enableInterrupts(mask)` appends exactly five calls: one
`Nvic::configureIrq` with `ENABLE` and the stored priorities for each of
`CAN2_TX`, `CAN2_RX0`, `CAN2_RX1`, `CAN2_SCE`, in that order, and then
`CAN_ITConfig(_can, mask, ENABLE)` with the mask of this call, not the
accumulated one. -/
theorem enableInterrupts_call_sequence (f : Can2InterruptFeature) (interruptMask : Nat)
    (g : Statics) :
    (Can2InterruptFeature.enableInterrupts f interruptMask g).2.calls = g.calls ++
      [Call.configureIrq IRQn.CAN2_TX_IRQn FunctionalState.ENABLE
          f._nvicPriority f._nvicSubPriority,
       Call.configureIrq IRQn.CAN2_RX0_IRQn FunctionalState.ENABLE
          f._nvicPriority f._nvicSubPriority,
       Call.configureIrq IRQn.CAN2_RX1_IRQn FunctionalState.ENABLE
          f._nvicPriority f._nvicSubPriority,
       Call.configureIrq IRQn.CAN2_SCE_IRQn FunctionalState.ENABLE
          f._nvicPriority f._nvicSubPriority,
       Call.CAN_ITConfig f._can interruptMask FunctionalState.ENABLE] ∧
    (((Can2InterruptFeature.enableInterrupts f interruptMask g).2.calls.drop
        g.calls.length).filter Call.isConfigureIrq).length = 4 ∧
    (Can2InterruptFeature.enableInterrupts { f with _interruptMask := 0x0F } 0x03 g).2.calls
      = g.calls ++
      [Call.configureIrq IRQn.CAN2_TX_IRQn FunctionalState.ENABLE
          f._nvicPriority f._nvicSubPriority,
       Call.configureIrq IRQn.CAN2_RX0_IRQn FunctionalState.ENABLE
          f._nvicPriority f._nvicSubPriority,
       Call.configureIrq IRQn.CAN2_RX1_IRQn FunctionalState.ENABLE
          f._nvicPriority f._nvicSubPriority,
       Call.configureIrq IRQn.CAN2_SCE_IRQn FunctionalState.ENABLE
          f._nvicPriority f._nvicSubPriority,
       Call.CAN_ITConfig f._can 0x03 FunctionalState.ENABLE] := by
  refine ⟨enableInterrupts_calls f interruptMask g, ?_, enableInterrupts_calls _ _ g⟩
  rw [enableInterrupts_calls, List.drop_left]
  rfl

/-- C10: `disableInterrupts` changes nothing but the accumulated mask. It
leaves `_canInstance`, `_forceLinkage`, the stored priority and sub-priority
and the identity of the object as they were, also when the new mask is zero,
and appends the single call `CAN_ITConfig(_can, mask, DISABLE)`, hence no
`Nvic::configureIrq` call. -/
theorem disableInterrupts_frame (f : Can2InterruptFeature) (interruptMask : Nat) (g : Statics) :
    (Can2InterruptFeature.disableInterrupts f interruptMask g).2._canInstance = g._canInstance ∧
    (Can2InterruptFeature.disableInterrupts f interruptMask g).2._forceLinkage
      = g._forceLinkage ∧
    (Can2InterruptFeature.disableInterrupts f interruptMask g).1._nvicPriority
      = f._nvicPriority ∧
    (Can2InterruptFeature.disableInterrupts f interruptMask g).1._nvicSubPriority
      = f._nvicSubPriority ∧
    (Can2InterruptFeature.disableInterrupts f interruptMask g).1.this = f.this ∧
    (Can2InterruptFeature.disableInterrupts f interruptMask g).1._can = f._can ∧
    (Can2InterruptFeature.disableInterrupts f interruptMask g).2.calls = g.calls ++
      [Call.CAN_ITConfig f._can interruptMask FunctionalState.DISABLE] ∧
    ((Can2InterruptFeature.disableInterrupts f interruptMask g).2.calls.drop
        g.calls.length).filter Call.isConfigureIrq = [] ∧
    (Can2InterruptFeature.disableInterrupts f f._interruptMask g).2._canInstance
      = g._canInstance := by
  refine ⟨rfl, rfl, rfl, rfl, rfl, rfl, rfl, ?_, rfl⟩
  show ((g.calls ++ [Call.CAN_ITConfig f._can interruptMask FunctionalState.DISABLE]).drop
    g.calls.length).filter Call.isConfigureIrq = []
  rw [List.drop_left]
  rfl

/-! ## The live-instance pointer -/

/-- C5, as the claim states it, fails: `f` is constructed at address 1, a
second feature at address 2, and then `f.enableInterrupts(1)` returns with
`_canInstance` holding address 2. -/
theorem enableInterrupts_publish_counterexample :
    (Can2InterruptFeature.Can2InterruptFeature 1 0 Statics.initial).1.this = 1 ∧
    (Can2InterruptFeature.enableInterrupts
      (Can2InterruptFeature.Can2InterruptFeature 1 0 Statics.initial).1 1
      (Can2InterruptFeature.Can2InterruptFeature 2 0
        (Can2InterruptFeature.Can2InterruptFeature 1 0 Statics.initial).2).2).2._canInstance
      = some 2 ∧
    (Can2InterruptFeature.enableInterrupts
      (Can2InterruptFeature.Can2InterruptFeature 1 0 Statics.initial).1 1
      (Can2InterruptFeature.Can2InterruptFeature 2 0
        (Can2InterruptFeature.Can2InterruptFeature 1 0 Statics.initial).2).2).2._canInstance
      ≠ some 1 := by
  decide

/-- C5, amended: it is the constructor that publishes the object in
`_canInstance`, and `enableInterrupts` leaves `_canInstance` as it was. So
after the constructor of `f` and any sequence of member calls on `f` ending in
`enableInterrupts`, with no other feature constructed in between,
`_canInstance` holds the address of `f`. -/
theorem enableInterrupts_keeps_canInstance (f : Can2InterruptFeature) (g : Statics)
    (this can interruptMask : Nat) (ops : List Op) :
    (Can2InterruptFeature.enableInterrupts f interruptMask g).2._canInstance
      = g._canInstance ∧
    (Can2InterruptFeature.Can2InterruptFeature this can g).2._canInstance = some this ∧
    (runOps (ops ++ [Op.enableInterrupts interruptMask])
        (Can2InterruptFeature.Can2InterruptFeature this can g)).2._canInstance = some this ∧
    (runOps (ops ++ [Op.enableInterrupts interruptMask])
        (Can2InterruptFeature.Can2InterruptFeature this can g)).1.this = this := by
  refine ⟨rfl, rfl, ?_, ?_⟩
  · rw [runOps_canInstance]; rfl
  · rw [(runOps_identity _ _).1]; rfl

/-- C6, as the claim states it, fails: the feature at address 1 is
constructed, enables `3`, disables `1` and is destroyed, and `_canInstance`
still holds address 1. -/
theorem destructor_dangling_counterexample :
    (runOps [Op.enableInterrupts 3, Op.disableInterrupts 1]
      (Can2InterruptFeature.Can2InterruptFeature 1 0 Statics.initial)).1.this = 1 ∧
    (Can2InterruptFeature.destructor
      (runOps [Op.enableInterrupts 3, Op.disableInterrupts 1]
        (Can2InterruptFeature.Can2InterruptFeature 1 0 Statics.initial)).1
      (runOps [Op.enableInterrupts 3, Op.disableInterrupts 1]
        (Can2InterruptFeature.Can2InterruptFeature 1 0 Statics.initial)).2).2._canInstance
      = some 1 := by
  decide

/-- C6, amended: the destructor leaves `_canInstance` as it was. After the
constructor of a feature and any sequence of member calls on it, with no other
feature constructed in between, `_canInstance` still holds the address of the
feature once it is destroyed. -/
theorem destructor_keeps_canInstance (f : Can2InterruptFeature) (g : Statics)
    (this can : Nat) (ops : List Op) :
    (Can2InterruptFeature.destructor f g).2._canInstance = g._canInstance ∧
    (Can2InterruptFeature.destructor
      (runOps ops (Can2InterruptFeature.Can2InterruptFeature this can g)).1
      (runOps ops (Can2InterruptFeature.Can2InterruptFeature this can g)).2).2._canInstance
      = some this ∧
    (runOps ops (Can2InterruptFeature.Can2InterruptFeature this can g)).1.this = this := by
  refine ⟨destructor_canInstance f g, ?_, ?_⟩
  · rw [destructor_canInstance, runOps_canInstance]; rfl
  · rw [(runOps_identity _ _).1]; rfl

/-! ## Composition of Timer15 -/

/-- C7: for every feature list, the `Timer15` constructor first constructs the
`GeneralPurposeTimer` base for `PERIPHERAL_TIMER15` on `TIM15`, then the
features one by one in their declared order, each with the reference to the
`Timer` base of the object under construction: the steps are the base step
followed by one construction step per feature, the step at position `i + 1`
being that of the feature at position `i`. -/
theorem Timer15_construction_order {φ : Type} (names : List φ) (this : Nat) :
    Timer15.steps names this =
      Step.baseConstructed PeripheralName.PERIPHERAL_TIMER15 TimerRegisters.TIM15 this ::
        names.map (fun n => Step.featureConstructed n (TimerRef.mk this)) ∧
    (Timer15.steps names this).length = names.length + 1 ∧
    (Timer15.steps names this)[0]? =
      some (Step.baseConstructed PeripheralName.PERIPHERAL_TIMER15 TimerRegisters.TIM15 this) ∧
    (∀ i : Nat, (Timer15.steps names this)[i + 1]? =
      (names[i]?).map (fun n => Step.featureConstructed n (TimerRef.mk this))) := by
  rw [Timer15.steps_eq]
  refine ⟨rfl, by simp, by simp, ?_⟩
  intro i
  simp [List.getElem?_map]

/-- C8, as the claim states it, fails: constructing a `Timer15` with the one
feature `0` makes no `initialise()` call on that feature, not one. -/
theorem Timer15_initialise_counterexample :
    (Timer15.steps [0] 7).count (Step.featureInitialised 0) = 0 ∧
    (Timer15.steps [0] 7).count (Step.featureInitialised 0) ≠ 1 := by
  decide

/-- C8, amended: the `Timer15` constructor calls `initialise()` on no feature.
Its steps are the base constructor and the feature constructors only, and
`Can2InterruptFeature::initialise()` changes nothing. -/
theorem Timer15_never_initialises {φ : Type} (names : List φ) (this : Nat) (n : φ)
    (f : Can2InterruptFeature) (g : Statics) :
    Step.featureInitialised n ∉ Timer15.steps names this ∧
    (Timer15.steps names this).length = names.length + 1 ∧
    Can2InterruptFeature.initialise f g = (f, g) := by
  rw [Timer15.steps_eq]
  refine ⟨?_, by simp, rfl⟩
  simp

end stm32plus
